import Mathlib

/-!
Verification of the spdx license-expression library (Go).

Shallow embedding of the sources:
  normalize.go   - heuristic normalizer (transforms, transpositions, last resorts)
  spdx.go        - Normalize
  parse_lax.go   - expression pre-processor (tokenizeForNormalization,
                   normalizeTokens, normalizeLicenseWords)
  expression/parser source - Expression tree, renderer, lexer,
                   recursive-descent parser, Parse, ParseStrict

Strings are modelled at the character level (`List Char` under `String`);
all inputs of interest are ASCII, for which Go's byte-level string
operations agree with the character-level model.
-/

set_option maxRecDepth 100000

namespace SpdxSpec

/-! ## Character and string helpers (Go `strings` / `unicode` semantics, ASCII) -/

/-- Embeds Go `unicode.IsSpace` (restricted to Latin-1, which is all that can
occur in the inputs considered): space, tab, newline, vertical tab, form feed,
carriage return, NEL, NBSP. -/
def goIsSpace (c : Char) : Bool :=
  c = ' ' || c = '\t' || c = '\n' || c.val = 11 || c.val = 12 ||
  c = '\r' || c.val = 0x85 || c.val = 0xA0

/-- Character class of Go's regexp `\s`, which is exactly `[\t\n\f\r ]`. -/
def reSp (c : Char) : Bool :=
  c = '\t' || c = '\n' || c.val = 12 || c = '\r' || c = ' '

/-- Go `strings.ToLower` on ASCII text. -/
def lowerStr (s : String) : String := ⟨s.data.map Char.toLower⟩

/-- Go `strings.ToUpper` on ASCII text. -/
def upperStr (s : String) : String := ⟨s.data.map Char.toUpper⟩

/-- Go `strings.HasPrefix`. -/
def strHasPrefix (s pre : String) : Bool := pre.data.isPrefixOf s.data

/-- Go `strings.HasSuffix`. -/
def strHasSuffix (s suf : String) : Bool := suf.data.isSuffixOf s.data

def containsAux (pat : List Char) : List Char → Bool
  | [] => pat.isEmpty
  | c :: cs => pat.isPrefixOf (c :: cs) || containsAux pat cs

/-- Go `strings.Contains`. -/
def strContains (s pat : String) : Bool := containsAux pat.data s.data

/-- Go `strings.TrimSpace` (ASCII). -/
def goTrimSpace (s : String) : String :=
  ⟨((s.data.dropWhile goIsSpace).reverse.dropWhile goIsSpace).reverse⟩

/-- Go `strings.TrimSuffix`. -/
def trimSuffixStr (s suf : String) : String :=
  if strHasSuffix s suf then ⟨s.data.take (s.data.length - suf.data.length)⟩ else s

/-- Go `strings.Join` with a separator. -/
def joinSep (sep : String) : List String → String
  | [] => ""
  | [x] => x
  | x :: xs => x ++ sep ++ joinSep sep xs

/-- Generic leftmost-scan replacement driver shared by the embeddings of
`strings.ReplaceAll` and of the compiled regexps used in normalize.go.
The matcher returns the replacement text and the input remaining after the
matched (always non-empty) span, so fuel equal to the input length suffices;
fuel-based structural recursion keeps the definition kernel-reducible. -/
def scanRepl (m : List Char → Option (List Char × List Char)) :
    Nat → List Char → List Char
  | 0, s => s
  | _, [] => []
  | fuel + 1, c :: cs =>
    match m (c :: cs) with
    | some (out, rest) => out ++ scanRepl m fuel rest
    | none => c :: scanRepl m fuel cs

/-- Go `strings.ReplaceAll` (all non-overlapping leftmost occurrences;
the sources never call it with an empty pattern). -/
def replaceAllStr (s f t : String) : String :=
  ⟨scanRepl
    (fun l => if f.data ≠ [] ∧ f.data.isPrefixOf l then some (t.data, l.drop f.data.length) else none)
    s.data.length s.data⟩

def ciIsPrefixOf (f s : List Char) : Bool :=
  (f.map Char.toLower).isPrefixOf (s.map Char.toLower)

/-- Replacement by the compiled regexp `(?i)QuoteMeta(f)` used for
transpositions: case-insensitive literal replacement of every leftmost
non-overlapping occurrence. -/
def ciReplaceAllStr (s f t : String) : String :=
  ⟨scanRepl
    (fun l => if f.data ≠ [] ∧ ciIsPrefixOf f.data l then some (t.data, l.drop f.data.length) else none)
    s.data.length s.data⟩

def indexOfAux (pat : List Char) : List Char → Option Nat
  | [] => if pat.isEmpty then some 0 else none
  | c :: cs =>
    if pat.isPrefixOf (c :: cs) then some 0
    else (indexOfAux pat cs).map (· + 1)

/-- Go `strings.Index` (first occurrence, or none). -/
def strIndexOf (s pat : String) : Option Nat := indexOfAux pat.data s.data

/-! ## Identifier Vocabulary

Modelled from the spec: the Identifier Vocabulary is an external
collaborator (package `spdxlicenses`, not part of this repository) - "an
immutable, case-insensitive mapping from known license/exception spellings
(including deprecated historical IDs) to canonical identifiers".  We model a
representative finite fragment containing every identifier exercised by the
claims: the current canonical identifiers, the deprecated historical
identifiers (including the bare and trailing-plus GNU family forms the
deprecated-upgrade rule names), and the exception identifiers. -/

def licenseList : List String :=
  ["MIT", "Apache-2.0",
   "GPL-2.0-only", "GPL-2.0-or-later", "GPL-3.0-only", "GPL-3.0-or-later",
   "LGPL-2.0-only", "LGPL-2.0-or-later", "LGPL-2.1-only", "LGPL-2.1-or-later",
   "LGPL-3.0-only", "LGPL-3.0-or-later",
   "AGPL-1.0-only", "AGPL-1.0-or-later", "AGPL-3.0-only", "AGPL-3.0-or-later",
   "BSD-2-Clause", "BSD-3-Clause", "BSD-4-Clause", "BSD-3-Clause-Clear",
   "ISC", "EPL-1.0", "EPL-2.0", "MPL-2.0", "Unlicense", "WTFPL", "Zlib",
   "BSL-1.0", "CC0-1.0", "CC-BY-3.0", "CC-BY-4.0", "CC-BY-NC-4.0",
   "Artistic-2.0", "UPL-1.0", "CDDL-1.1", "Beerware", "X11"]

def deprecatedList : List String :=
  ["GPL-1.0", "GPL-1.0+", "GPL-2.0", "GPL-2.0+", "GPL-3.0", "GPL-3.0+",
   "LGPL-1.0", "LGPL-2.0", "LGPL-2.0+", "LGPL-2.1", "LGPL-2.1+",
   "LGPL-3.0", "LGPL-3.0+", "AGPL-1.0", "AGPL-2.0", "AGPL-3.0"]

def exceptionList : List String :=
  ["Classpath-exception-2.0", "LLVM-exception", "GCC-exception-3.1"]

/-- Embeds `lookupLicense` (normalize.go): case-insensitive lookup in the
license map, which holds the current licenses and, where not shadowed, the
deprecated ones; returns `""` when not found. -/
def lookupLicense (s : String) : String :=
  let ls := lowerStr s
  (((licenseList ++ deprecatedList).find? (fun id => lowerStr id == ls))).getD ""

/-- Embeds `lookupException` (normalize.go). -/
def lookupException (s : String) : String :=
  let ls := lowerStr s
  ((exceptionList.find? (fun id => lowerStr id == ls))).getD ""

/-! ## normalize.go: deprecated-identifier upgrade -/

/-- Embeds `upgradeGPL` (normalize.go): converts deprecated GPL/LGPL/AGPL
identifiers to their modern equivalents. -/
def upgradeGPL (license : String) : String :=
  if license = "GPL-1.0" || license = "LGPL-1.0" || license = "AGPL-1.0" ||
     license = "GPL-2.0" || license = "LGPL-2.0" || license = "AGPL-2.0" ||
     license = "LGPL-2.1" then
    license ++ "-only"
  else if license = "GPL-1.0+" || license = "GPL-2.0+" || license = "GPL-3.0+" ||
     license = "LGPL-2.0+" || license = "LGPL-2.1+" || license = "LGPL-3.0+" ||
     license = "AGPL-1.0+" || license = "AGPL-3.0+" then
    trimSuffixStr license "+" ++ "-or-later"
  else if license = "GPL-3.0" || license = "LGPL-3.0" || license = "AGPL-3.0" then
    license ++ "-or-later"
  else
    license

/-! ## Compiled regular expressions of normalize.go

Each Go regexp used by the transform chain is hand-compiled to a matcher
with RE2 leftmost / preference semantics.  A matcher takes the input
remaining at the attempted start position and returns the replacement text
together with the input remaining after the (non-empty) matched span. -/

/-- Word character of Go regexp `\b` boundaries: `[0-9A-Za-z_]`. -/
def reWordChar (c : Char) : Bool := c.isAlphanum || c = '_'

/-- Leftmost-scan replacement for patterns anchored at a `\b` word boundary.
All such matchers here consume text ending in a word character, so the
boundary state after a replacement is false. -/
def scanReplB (m : List Char → Option (List Char × List Char)) :
    Nat → Bool → List Char → List Char
  | 0, _, s => s
  | _, _, [] => []
  | fuel + 1, bd, c :: cs =>
    match (if bd then m (c :: cs) else none) with
    | some (out, rest) => out ++ scanReplB m fuel false rest
    | none => c :: scanReplB m fuel (!reWordChar c) cs

def ciPrefixDrop (pat l : List Char) : Option (List Char) :=
  if ciIsPrefixOf pat l then some (l.drop pat.length) else none

/-- Matcher of `reDigit` = `,?\s*(\d)` with replacement `-$1`. -/
def matchCommaSpDigit (l : List Char) : Option (List Char × List Char) :=
  let l1 := match l with | ',' :: t => t | _ => l
  match l1.dropWhile reSp with
  | d :: rest => if d.isDigit then some (['-', d], rest) else none
  | [] => none

/-- Matcher of `reDigitEnd` = `,?\s*(\d)$` with replacement `-$1.0`. -/
def matchCommaSpDigitEnd (l : List Char) : Option (List Char × List Char) :=
  let l1 := match l with | ',' :: t => t | _ => l
  match l1.dropWhile reSp with
  | [d] => if d.isDigit then some (['-', d, '.', '0'], []) else none
  | _ => none

def trySpDigit (m : List Char) : Option (Char × List Char) :=
  match m.dropWhile reSp with
  | d :: rest => if d.isDigit then some (d, rest) else none
  | [] => none

def matchVersionWord (l : List Char) : Option (Char × List Char) :=
  match ciPrefixDrop "Version".data l with
  | some l3 => trySpDigit l3
  | none => none

/-- The `(V\.?|Version)\s*(\d)` part of `reVersion`, with RE2 alternation
and greedy-optional preference: `V.` first, then `V`, then `Version`. -/
def matchVDigit (l : List Char) : Option (Char × List Char) :=
  match l with
  | c :: l3 =>
    if c = 'v' || c = 'V' then
      match (match l3 with
             | '.' :: l4 => trySpDigit l4
             | _ => none) with
      | some r => some r
      | none =>
        match trySpDigit l3 with
        | some r => some r
        | none => matchVersionWord l
    else matchVersionWord l
  | [] => none

/-- Matcher of `reVersion` = `(?i),?\s*(V\.?|Version)\s*(\d)`, replacement `-$2`. -/
def matchVersion (l : List Char) : Option (List Char × List Char) :=
  let l1 := match l with | ',' :: t => t | _ => l
  match matchVDigit (l1.dropWhile reSp) with
  | some (d, rest) => some (['-', d], rest)
  | none => none

/-- Matcher of `reVersionEnd` = `(?i),?\s*(V\.?|Version)\s*(\d)$`, replacement `-$2.0`. -/
def matchVersionEnd (l : List Char) : Option (List Char × List Char) :=
  let l1 := match l with | ',' :: t => t | _ => l
  match matchVDigit (l1.dropWhile reSp) with
  | some (d, []) => some (['-', d, '.', '0'], [])
  | _ => none

/-- Matcher of `reTrailingDigit` = `(\d)$`, replacement `-$1.0`. -/
def matchTrailingDigit : List Char → Option (List Char × List Char)
  | [d] => if d.isDigit then some (['-', d, '.', '0'], []) else none
  | _ => none

/-- Matcher of `reBSDNum` = `(?i)(-|\s)?(\d)$`, replacement `-$2-Clause`. -/
def matchBSDNum : List Char → Option (List Char × List Char)
  | [d] => if d.isDigit then some ('-' :: d :: "-Clause".data, []) else none
  | [c, d] => if (c = '-' || reSp c) && d.isDigit then some ('-' :: d :: "-Clause".data, []) else none
  | _ => none

/-- Matcher of `reBSDClause` = `(?i)(-|\s)clause(-|\s)(\d)`, replacement `-$3-Clause`. -/
def matchBSDClause (l : List Char) : Option (List Char × List Char) :=
  match l with
  | c1 :: rest1 =>
    if c1 = '-' || reSp c1 then
      match ciPrefixDrop "clause".data rest1 with
      | some (c2 :: rest3) =>
        if c2 = '-' || reSp c2 then
          match rest3 with
          | d :: rest4 => if d.isDigit then some ('-' :: d :: "-Clause".data, rest4) else none
          | [] => none
        else none
      | _ => none
    else none
  | [] => none

/-- Case-insensitive literal suffix `License` of the BSD-family patterns. -/
def sfxLicense (l : List Char) : Option (List Char) := ciPrefixDrop "License".data l

/-- Case-insensitive suffix `Licen[sc]e` of `reFreeNetBSD`. -/
def sfxLicenSCe (l : List Char) : Option (List Char) :=
  match ciPrefixDrop "Licen".data l with
  | some (c :: e :: l3) =>
    if (c = 's' || c = 'c' || c = 'S' || c = 'C') && (e = 'e' || e = 'E') then some l3 else none
  | _ => none

/-- The common `(-|\s)?BSD((-|\s)Suffix)?` part of the BSD-family regexps,
with greedy-optional preference (separator and suffix present first). -/
def matchAfterAlt (sfx : List Char → Option (List Char)) (l1 : List Char) :
    Option (List Char) :=
  let tryFrom : List Char → Option (List Char) := fun l2 =>
    match ciPrefixDrop "BSD".data l2 with
    | some l3 =>
      some (match l3 with
            | c :: l4 =>
              if c = '-' || reSp c then
                (match sfx l4 with | some l5 => l5 | none => l3)
              else l3
            | [] => l3)
    | none => none
  match l1 with
  | c :: rest =>
    if c = '-' || reSp c then
      match tryFrom rest with
      | some r => some r
      | none => tryFrom l1
    else tryFrom l1
  | [] => tryFrom l1

/-- Alternation over the leading word alternatives of a BSD-family pattern,
returning the matched group text (original case) and the remaining input. -/
def matchBSDPatternGo (sfx : List Char → Option (List Char)) (l : List Char) :
    List (List Char) → Option (List Char × List Char)
  | [] => none
  | alt :: more =>
    match ciPrefixDrop alt l with
    | some l1 =>
      match matchAfterAlt sfx l1 with
      | some rest => some (l.take alt.length, rest)
      | none => matchBSDPatternGo sfx l more
    | none => matchBSDPatternGo sfx l more

/-- First match of `reFreeNetBSD` = `(?i)\b(Free|Net)(-|\s)?BSD((-|\s)Licen[sc]e)?`,
returning the text of group 1. -/
def findFreeNetAux : Bool → List Char → Option (List Char)
  | _, [] => none
  | bd, c :: cs =>
    match (if bd then matchBSDPatternGo sfxLicenSCe (c :: cs) ["Free".data, "Net".data] else none) with
    | some (g, _) => some g
    | none => findFreeNetAux (!reWordChar c) cs

/-- Matcher of `reCCSpaceDigit` = `\s+(\d)`, replacement `-$1`. -/
def matchSpRunDigit (l : List Char) : Option (List Char × List Char) :=
  match l with
  | c :: _ =>
    if reSp c then
      match l.dropWhile reSp with
      | d :: rest => if d.isDigit then some (['-', d], rest) else none
      | [] => none
    else none
  | [] => none

/-- MatchString of `reCCVersion` = `\d\.\d`. -/
def hasDigitDotDigit : List Char → Bool
  | a :: b :: c :: rest => (a.isDigit && b = '.' && c.isDigit) || hasDigitDotDigit (b :: c :: rest)
  | _ => false

/-- Replacement for `reWhitespace` = `\s+`: every maximal whitespace run
becomes `t`. -/
def replaceWsRunsAux (t : List Char) : Bool → List Char → List Char
  | _, [] => []
  | inRun, c :: cs =>
    if reSp c then (if inRun then [] else t) ++ replaceWsRunsAux t true cs
    else c :: replaceWsRunsAux t false cs

/-- Go `strings.Replace(s, "v", "-", 1)`. -/
def replaceFirstV : List Char → List Char
  | [] => []
  | c :: cs => if c = 'v' then '-' :: cs else c :: replaceFirstV cs

def titleCase : List Char → String
  | [] => ""
  | c :: cs => ⟨c.toUpper :: cs.map Char.toLower⟩

/-! ## normalize.go: transform chain -/

/-- Embeds the Creative-Commons attribution transform (last entry of
`transforms` in normalize.go). -/
def ccTransform (s : String) : String :=
  let r1 := replaceAllStr s "Attribution" "BY"
  let r2 := replaceAllStr r1 "NonCommercial" "NC"
  let r3 := replaceAllStr r2 "NoDerivatives" "ND"
  let r4 := replaceAllStr r3 "ShareAlike" "SA"
  let r5 : String := ⟨scanRepl matchSpRunDigit r4.data.length r4.data⟩
  let result := replaceAllStr r5 " International" ""
  if result ≠ s ∧ ¬ strHasPrefix result "CC-" then
    let result2 := "CC-" ++ result
    if ¬ hasDigitDotDigit result2.data then result2 ++ "-4.0" else result2
  else result

/-- Embeds `transforms` (normalize.go): the ordered transform chain. -/
def transforms : List (String → String) :=
  [fun s => upperStr s,
   fun s => goTrimSpace s,
   fun s => replaceAllStr s "." "",
   fun s => ⟨replaceWsRunsAux [] false s.data⟩,
   fun s => ⟨replaceWsRunsAux ['-'] false s.data⟩,
   fun s => ⟨replaceFirstV s.data⟩,
   fun s => ⟨scanRepl matchCommaSpDigit s.data.length s.data⟩,
   fun s => ⟨scanRepl matchCommaSpDigitEnd s.data.length s.data⟩,
   fun s => ⟨scanRepl matchVersion s.data.length s.data⟩,
   fun s => ⟨scanRepl matchVersionEnd s.data.length s.data⟩,
   fun s => match s.data with | [] => s | c :: cs => ⟨c.toUpper :: cs⟩,
   fun s => replaceAllStr s "/" "-",
   fun s => if strContains s "3.0" then s ++ "-or-later" else s ++ "-only",
   fun s => if strHasSuffix s "-" then s ++ "only" else s,
   fun s => ⟨scanRepl matchTrailingDigit s.data.length s.data⟩,
   fun s => ⟨scanRepl matchBSDNum s.data.length s.data⟩,
   fun s => ⟨scanRepl matchBSDClause s.data.length s.data⟩,
   fun s => ⟨scanReplB
      (fun l => (matchBSDPatternGo sfxLicense l
         ["Modified".data, "New".data, "Revised".data]).map
         (fun p => ("BSD-3-Clause".data, p.2)))
      s.data.length true s.data⟩,
   fun s => ⟨scanReplB
      (fun l => (matchBSDPatternGo sfxLicense l ["Simplified".data]).map
         (fun p => ("BSD-2-Clause".data, p.2)))
      s.data.length true s.data⟩,
   fun s => match findFreeNetAux true s.data with
            | some g => "BSD-2-Clause-" ++ titleCase g ++ "BSD"
            | none => s,
   fun s => ⟨scanReplB
      (fun l => (matchBSDPatternGo sfxLicense l ["Clear".data]).map
         (fun p => ("BSD-3-Clause-Clear".data, p.2)))
      s.data.length true s.data⟩,
   fun s => ⟨scanReplB
      (fun l => (matchBSDPatternGo sfxLicense l ["Old".data, "Original".data]).map
         (fun p => ("BSD-4-Clause".data, p.2)))
      s.data.length true s.data⟩,
   fun s => if strHasPrefix (upperStr s) "BY-" then "CC-" ++ s else s,
   fun s => ccTransform s]

/-- Loop body of `tryTransforms` (normalize.go). -/
def tryTransformsGo (s base : String) (hasPlus : Bool) : List (String → String) → String
  | [] => ""
  | t :: rest =>
    let transformed := goTrimSpace (t s)
    if transformed ≠ s ∧ lookupLicense transformed ≠ "" then
      upgradeGPL (lookupLicense transformed)
    else if hasPlus then
      let tb := goTrimSpace (t base)
      if tb ≠ base ∧ lookupLicense tb ≠ "" then
        upgradeGPL (lookupLicense tb ++ "+")
      else tryTransformsGo s base hasPlus rest
    else tryTransformsGo s base hasPlus rest

/-- Embeds `tryTransforms` (normalize.go). -/
def tryTransforms (s : String) : String :=
  tryTransformsGo s (trimSuffixStr s "+") (strHasSuffix s "+") transforms

/-! ## normalize.go: transpositions and last resorts -/

structure Transposition where
  fromS : String
  toS : String

/-- Embeds `transpositionData` (normalize.go), in source order. -/
def transpositionData : List Transposition :=
  [⟨"The Apache Software License, Version 2.0", "Apache-2.0"⟩,
   ⟨"The Apache License, Version 2.0", "Apache-2.0"⟩,
   ⟨"Apache Software License, Version 2.0", "Apache-2.0"⟩,
   ⟨"Apache License, Version 2.0", "Apache-2.0"⟩,
   ⟨"The Apache Software License", "Apache"⟩,
   ⟨"Apache Software License", "Apache"⟩,
   ⟨"The MIT License", "MIT"⟩,
   ⟨"GNU Lesser General Public License v3.0", "LGPL-3.0"⟩,
   ⟨"GNU Lesser General Public License v3", "LGPL-3.0"⟩,
   ⟨"GNU Lesser General Public License v2.1", "LGPL-2.1"⟩,
   ⟨"GNU Lesser General Public License v2.0", "LGPL-2.0"⟩,
   ⟨"GNU Lesser General Public License v2", "LGPL-2.0"⟩,
   ⟨"GNU LESSER GENERAL PUBLIC LICENSE", "LGPL-2.1"⟩,
   ⟨"GNU Lesser General Public License", "LGPL-2.1"⟩,
   ⟨"Lesser General Public License", "LGPL-2.1"⟩,
   ⟨"LESSER GENERAL PUBLIC LICENSE", "LGPL-2.1"⟩,
   ⟨"GNU AFFERO GENERAL PUBLIC LICENSE", "AGPL"⟩,
   ⟨"AFFERO GENERAL PUBLIC LICENSE", "AGPL"⟩,
   ⟨"GNU GENERAL PUBLIC LICENSE", "GPL"⟩,
   ⟨"GNU General Public License", "GPL"⟩,
   ⟨"Gnu public license", "GPL"⟩,
   ⟨"GNU Public License", "GPL"⟩,
   ⟨"Mozilla Public License", "MPL"⟩,
   ⟨"Universal Permissive License", "UPL"⟩,
   ⟨"Eclipse Public License", "EPL"⟩,
   ⟨" or later", "+"⟩,
   ⟨"-or-later", "+"⟩,
   ⟨" International", ""⟩,
   ⟨"GNU LGPL", "LGPL"⟩,
   ⟨"GNU GPL", "GPL"⟩,
   ⟨"GNU/GPL", "GPL"⟩,
   ⟨"GNU GLP", "GPL"⟩,
   ⟨"GNU/GPLv", "GPLv"⟩,
   ⟨" License", ""⟩,
   ⟨"-License", ""⟩,
   ⟨"WTFGPL", "WTFPL"⟩,
   ⟨"APGL", "AGPL"⟩,
   ⟨"GLP", "GPL"⟩,
   ⟨"APLv", "Apache-"⟩,
   ⟨"APL", "Apache"⟩,
   ⟨"ISD", "ISC"⟩,
   ⟨"IST", "ISC"⟩,
   ⟨"MTI", "MIT"⟩,
   ⟨"GNU", "GPL"⟩,
   ⟨"GUN", "GPL"⟩,
   ⟨"Gpl", "GPL"⟩,
   ⟨"WTH", "WTF"⟩,
   ⟨"Claude", "Clause"⟩,
   ⟨"+", ""⟩]

/-- Go byte-lexicographic string order (ASCII). -/
def charsLt : List Char → List Char → Bool
  | [], [] => false
  | [], _ :: _ => true
  | _ :: _, [] => false
  | a :: as, b :: bs => if a.val < b.val then true else if b.val < a.val then false else charsLt as bs

def insertBy (lt : α → α → Bool) (x : α) : List α → List α
  | [] => [x]
  | y :: ys => if lt x y then x :: y :: ys else y :: insertBy lt x ys

def sortByLt (lt : α → α → Bool) : List α → List α
  | [] => []
  | x :: xs => insertBy lt x (sortByLt lt xs)

/-- The comparator of the `init` sort of transpositions: length descending,
then source string ascending.  It is a strict total order on the data, so
any comparison sort produces the order Go's `sort.Slice` produces. -/
def transLT (a b : Transposition) : Bool :=
  if a.fromS.data.length ≠ b.fromS.data.length then b.fromS.data.length < a.fromS.data.length
  else charsLt a.fromS.data b.fromS.data

/-- Embeds `transpositions`: `transpositionData` sorted as in `init` (normalize.go). -/
def transpositions : List Transposition := sortByLt transLT transpositionData

/-- Loop body of `tryTranspositions` (normalize.go). -/
def tryTranspositionsGo (s sUpper : String) : List Transposition → String
  | [] => ""
  | tr :: rest =>
    if strContains s tr.fromS || strContains sUpper (upperStr tr.fromS) then
      let corrected0 := replaceAllStr s tr.fromS tr.toS
      let corrected := if corrected0 = s then ciReplaceAllStr s tr.fromS tr.toS else corrected0
      if lookupLicense corrected ≠ "" then upgradeGPL (lookupLicense corrected)
      else
        let result := tryTransforms corrected
        if result ≠ "" then result
        else tryTranspositionsGo s sUpper rest
    else tryTranspositionsGo s sUpper rest

/-- Embeds `tryTranspositions` (normalize.go). -/
def tryTranspositions (s : String) : String :=
  tryTranspositionsGo s (upperStr s) transpositions

structure LastResort where
  substring : String
  license : String

set_option maxHeartbeats 1600000 in
/-- Embeds `lastResorts` data (normalize.go), in source order. -/
def lastResortData : List LastResort :=
  [⟨"MIT +NO-FALSE-ATTRIBS", "MITNFA"⟩,
   ⟨"PUBLIC DOMAIN", "Unlicense"⟩,
   ⟨"PUBLIC-DOMAIN", "Unlicense"⟩,
   ⟨"PUBLICDOMAIN", "Unlicense"⟩,
   ⟨"ECLIPSE PUBLIC LICENSE 2", "EPL-2.0"⟩,
   ⟨"ECLIPSE PUBLIC LICENSE, VERSION 2", "EPL-2.0"⟩,
   ⟨"ECLIPSE PUBLIC LICENSE V2", "EPL-2.0"⟩,
   ⟨"EPL-2", "EPL-2.0"⟩,
   ⟨"EPL 2", "EPL-2.0"⟩,
   ⟨"EPL2", "EPL-2.0"⟩,
   ⟨"ECLIPSE PUBLIC LICENSE 1", "EPL-1.0"⟩,
   ⟨"EPL-1", "EPL-1.0"⟩,
   ⟨"EPL 1", "EPL-1.0"⟩,
   ⟨"EPL1", "EPL-1.0"⟩,
   ⟨"ASL-2", "Apache-2.0"⟩,
   ⟨"ASL 2", "Apache-2.0"⟩,
   ⟨"ASL2", "Apache-2.0"⟩,
   ⟨"ALV2", "Apache-2.0"⟩,
   ⟨"AL2", "Apache-2.0"⟩,
   ⟨"ASL", "Apache-2.0"⟩,
   ⟨"2 CLAUSE", "BSD-2-Clause"⟩,
   ⟨"2-CLAUSE", "BSD-2-Clause"⟩,
   ⟨"3 CLAUSE", "BSD-3-Clause"⟩,
   ⟨"3-CLAUSE", "BSD-3-Clause"⟩,
   ⟨"AFFERO", "AGPL-3.0-or-later"⟩,
   ⟨"AGPL", "AGPL-3.0-or-later"⟩,
   ⟨"LGPL2.1+", "LGPL-2.1-or-later"⟩,
   ⟨"LGPL2.1", "LGPL-2.1-only"⟩,
   ⟨"LGPLV2.1", "LGPL-2.1-only"⟩,
   ⟨"LGPLV1", "LGPL-1.0-only"⟩,
   ⟨"LGPL-1", "LGPL-1.0-only"⟩,
   ⟨"LGPLV2", "LGPL-2.0-only"⟩,
   ⟨"LGPL-2", "LGPL-2.0-only"⟩,
   ⟨"LGPL", "LGPL-3.0-or-later"⟩,
   ⟨"GPLV1", "GPL-1.0-only"⟩,
   ⟨"GPL-1", "GPL-1.0-only"⟩,
   ⟨"GPLV2", "GPL-2.0-only"⟩,
   ⟨"GPL-2", "GPL-2.0-only"⟩,
   ⟨"GPL", "GPL-3.0-or-later"⟩,
   ⟨"GNU", "GPL-3.0-or-later"⟩,
   ⟨"APACHE", "Apache-2.0"⟩,
   ⟨"ARTISTIC_2", "Artistic-2.0"⟩,
   ⟨"ARTISTIC_1", "Artistic-1.0"⟩,
   ⟨"ARTISTIC-2", "Artistic-2.0"⟩,
   ⟨"ARTISTIC-1", "Artistic-1.0"⟩,
   ⟨"ARTISTIC 2", "Artistic-2.0"⟩,
   ⟨"ARTISTIC 1", "Artistic-1.0"⟩,
   ⟨"ARTISTIC", "Artistic-2.0"⟩,
   ⟨"BEER", "Beerware"⟩,
   ⟨"BOOST", "BSL-1.0"⟩,
   ⟨"BSD", "BSD-2-Clause"⟩,
   ⟨"CC0", "CC0-1.0"⟩,
   ⟨"CDDL", "CDDL-1.1"⟩,
   ⟨"ECLIPSE", "EPL-1.0"⟩,
   ⟨"EPL", "EPL-1.0"⟩,
   ⟨"FUCK", "WTFPL"⟩,
   ⟨"MIT", "MIT"⟩,
   ⟨"MPL", "MPL-2.0"⟩,
   ⟨"UNLI", "Unlicense"⟩,
   ⟨"UPL", "UPL-1.0"⟩,
   ⟨"WTF", "WTFPL"⟩,
   ⟨"X11", "X11"⟩,
   ⟨"ZLIB", "Zlib"⟩,
   ⟨"ISCL", "ISC"⟩,
   ⟨"ICS", "ISC"⟩,
   ⟨"ISC", "ISC"⟩,
   ⟨"OPEN FONT", "OFL-1.1"⟩,
   ⟨"OFL", "OFL-1.1"⟩,
   ⟨"PHP-3", "PHP-3.01"⟩,
   ⟨"PHP", "PHP-3.01"⟩,
   ⟨"PYTHON SOFTWARE FOUNDATION", "PSF-2.0"⟩,
   ⟨"PSF-2", "PSF-2.0"⟩,
   ⟨"PSF", "PSF-2.0"⟩,
   ⟨"PYTHON", "Python-2.0"⟩,
   ⟨"PERL_5", "Artistic-1.0-Perl"⟩,
   ⟨"PERL5", "Artistic-1.0-Perl"⟩,
   ⟨"PERL 5", "Artistic-1.0-Perl"⟩,
   ⟨"ZPL", "ZPL-2.1"⟩,
   ⟨"EUROPEAN UNION PUBLIC", "EUPL-1.2"⟩,
   ⟨"EUPL", "EUPL-1.2"⟩,
   ⟨"WXWINDOWS", "wxWindows"⟩,
   ⟨"WXWIDGETS", "wxWindows"⟩]

/-- The comparator of the `init` sort of last resorts: length descending,
then substring ascending. -/
def lastResortLT (a b : LastResort) : Bool :=
  if a.substring.data.length ≠ b.substring.data.length then
    b.substring.data.length < a.substring.data.length
  else charsLt a.substring.data b.substring.data

/-- Embeds `lastResorts`: the data sorted as in `init` (normalize.go). -/
def lastResorts : List LastResort := sortByLt lastResortLT lastResortData

/-- Loop body of `tryLastResorts` (normalize.go). -/
def tryLastResortsGo (upper : String) : List LastResort → String
  | [] => ""
  | lr :: rest =>
    if strContains upper lr.substring then upgradeGPL lr.license
    else tryLastResortsGo upper rest

/-- Embeds `tryLastResorts` (normalize.go). -/
def tryLastResorts (s : String) : String := tryLastResortsGo (upperStr s) lastResorts

/-- Loop body of `tryTranspositionsWithLastResorts` (normalize.go). -/
def tryTranspositionsWithLastResortsGo (s sUpper : String) : List Transposition → String
  | [] => ""
  | tr :: rest =>
    if strContains s tr.fromS || strContains sUpper (upperStr tr.fromS) then
      let corrected0 := replaceAllStr s tr.fromS tr.toS
      let corrected := if corrected0 = s then ciReplaceAllStr s tr.fromS tr.toS else corrected0
      let result := tryLastResorts corrected
      if result ≠ "" then result
      else tryTranspositionsWithLastResortsGo s sUpper rest
    else tryTranspositionsWithLastResortsGo s sUpper rest

/-- Embeds `tryTranspositionsWithLastResorts` (normalize.go). -/
def tryTranspositionsWithLastResorts (s : String) : String :=
  tryTranspositionsWithLastResortsGo s (upperStr s) transpositions

/-! ## Errors

The Go sources use sentinel errors, optionally wrapped with a context
phrase (`fmt.Errorf("%w: %s", ...)`) or with `LicenseError{License, Err}`.
Each error value is modelled as its kind plus the context phrase. -/

inductive Err where
  | emptyExpression
  | unexpectedToken (context : String)
  | unbalancedParens
  | invalidLicenseID (context : String)
  | invalidException (context : String)
  | missingOperand (context : String)
  | invalidSpecialValue
  | invalidLicense
  | outOfFuel
deriving DecidableEq

instance {ε α : Type} [DecidableEq ε] [DecidableEq α] : DecidableEq (Except ε α) := fun a b =>
  match a, b with
  | .ok x, .ok y =>
    if h : x = y then isTrue (by rw [h]) else isFalse (by intro hc; cases hc; exact h rfl)
  | .error x, .error y =>
    if h : x = y then isTrue (by rw [h]) else isFalse (by intro hc; cases hc; exact h rfl)
  | .ok _, .error _ => isFalse (by intro hc; cases hc)
  | .error _, .ok _ => isFalse (by intro hc; cases hc)

/-! ## spdx.go: Normalize -/

/-- Embeds `Normalize` (spdx.go): the layered fallback pipeline. -/
def Normalize (license : String) : Except Err String :=
  let license := goTrimSpace license
  if license = "" then .error .invalidLicense
  else if lookupLicense license ≠ "" then .ok (upgradeGPL (lookupLicense license))
  else
    let noPlus := trimSuffixStr (goTrimSpace license) "+"
    if noPlus ≠ license ∧ lookupLicense noPlus ≠ "" then
      .ok (upgradeGPL (lookupLicense noPlus ++ "+"))
    else
      let r1 := tryTransforms license
      if r1 ≠ "" then .ok r1
      else
        let r2 := tryTranspositions license
        if r2 ≠ "" then .ok r2
        else
          let r3 := tryLastResorts license
          if r3 ≠ "" then .ok r3
          else
            let r4 := tryTranspositionsWithLastResorts license
            if r4 ≠ "" then .ok r4
            else .error .invalidLicense

/-! ## Expression tree and renderer -/

/-- Alias for `String` usable inside the `Expression` namespace, where the
method name `Expression.String` would otherwise shadow the type. -/
abbrev Str := String

/-- Embeds the `Expression` interface and its concrete types `License`,
`LicenseRef`, `AndExpression`, `OrExpression`, `SpecialValue`.
A `License` with no exception has `exception = ""`, and a `LicenseRef`
with no document reference has `documentRef = ""`, as in the Go structs. -/
inductive Expression where
  | license (id : String) (plus : Bool) (exception : String)
  | licenseRef (documentRef : String) (licenseRef : String)
  | andExpr (left right : Expression)
  | orExpr (left right : Expression)
  | specialValue (value : String)
deriving DecidableEq

/-- Embeds the `String()` methods of the five expression types: the
canonical renderer.  `AndExpression.String` parenthesizes OR children;
`OrExpression.String` parenthesizes AND children and License children
that carry an exception. -/
def Expression.String : Expression → Str
  | .license id pl exc =>
    let s1 := if pl then id ++ "+" else id
    if exc ≠ "" then s1 ++ " WITH " ++ exc else s1
  | .licenseRef doc lic =>
    if doc ≠ "" then "DocumentRef-" ++ doc ++ ":LicenseRef-" ++ lic
    else "LicenseRef-" ++ lic
  | .andExpr l r =>
    (match l with
     | .orExpr _ _ => "(" ++ Expression.String l ++ ")"
     | _ => Expression.String l) ++ " AND " ++
    (match r with
     | .orExpr _ _ => "(" ++ Expression.String r ++ ")"
     | _ => Expression.String r)
  | .orExpr l r =>
    (match l with
     | .andExpr _ _ => "(" ++ Expression.String l ++ ")"
     | .license _ _ exc => if exc ≠ "" then "(" ++ Expression.String l ++ ")" else Expression.String l
     | _ => Expression.String l) ++ " OR " ++
    (match r with
     | .andExpr _ _ => "(" ++ Expression.String r ++ ")"
     | .license _ _ exc => if exc ≠ "" then "(" ++ Expression.String r ++ ")" else Expression.String r
     | _ => Expression.String r)
  | .specialValue v => v

/-- Embeds the `Licenses()` methods: left-to-right flattening of the
License and LicenseRef leaves; a License contributes its bare identifier,
a LicenseRef its rendered literal, a SpecialValue nothing. -/
def Expression.Licenses : Expression → List Str
  | .license id _ _ => [id]
  | .licenseRef doc lic => [Expression.String (.licenseRef doc lic)]
  | .andExpr l r => Expression.Licenses l ++ Expression.Licenses r
  | .orExpr l r => Expression.Licenses l ++ Expression.Licenses r
  | .specialValue _ => []

/-! ## Lexer -/

/-- Embeds `tokenType`/`token` (the lexer's tokens).  End of input is
modelled as the end of the token list rather than a `tokenEOF` value. -/
inductive Tok where
  | tokenLicense (value : String)
  | tokenLicenseRef (value : String)
  | tokenDocumentRef (value : String)
  | tokenAnd
  | tokenOr
  | tokenWith
  | tokenPlus
  | tokenOpenParen
  | tokenCloseParen
deriving DecidableEq

/-- The `value` field of a token, as carried by the Go `token` struct. -/
def Tok.value : Tok → String
  | .tokenLicense v => v
  | .tokenLicenseRef v => v
  | .tokenDocumentRef v => v
  | .tokenAnd => "AND"
  | .tokenOr => "OR"
  | .tokenWith => "WITH"
  | .tokenPlus => "+"
  | .tokenOpenParen => "("
  | .tokenCloseParen => ")"

/-- Word classification of `lexer.next`: keywords, DocumentRef/LicenseRef
prefixes, otherwise a license word. -/
def classifyWord (w : String) : Tok :=
  let upper := upperStr w
  if upper = "AND" then .tokenAnd
  else if upper = "OR" then .tokenOr
  else if upper = "WITH" then .tokenWith
  else if strHasPrefix upper "DOCUMENTREF-" then .tokenDocumentRef w
  else if strHasPrefix upper "LICENSEREF-" then .tokenLicenseRef w
  else .tokenLicense w

/-- Embeds the `lexer`: whitespace separates; `(`, `)`, `+` are
single-character tokens that terminate any in-progress word.  The buffer
argument accumulates the current word. -/
def lexAux : List Char → List Char → List Tok
  | [], cur => if cur = [] then [] else [classifyWord ⟨cur⟩]
  | c :: cs, cur =>
    if goIsSpace c then
      (if cur = [] then [] else [classifyWord ⟨cur⟩]) ++ lexAux cs []
    else if c = '(' then
      (if cur = [] then [] else [classifyWord ⟨cur⟩]) ++ Tok.tokenOpenParen :: lexAux cs []
    else if c = ')' then
      (if cur = [] then [] else [classifyWord ⟨cur⟩]) ++ Tok.tokenCloseParen :: lexAux cs []
    else if c = '+' then
      (if cur = [] then [] else [classifyWord ⟨cur⟩]) ++ Tok.tokenPlus :: lexAux cs []
    else
      lexAux cs (cur ++ [c])

/-- The full token sequence the `lexer` produces on an input. -/
def lexGo (s : String) : List Tok := lexAux s.data []

/-! ## Parser

The four mutually recursive parsing functions of the source are flattened
into one fuel-based function over a mode, so that the definition is
structurally recursive (every call decreases the fuel) and remains
kernel-reducible.  The two `for` loops become the two loop modes carrying
the expression accumulated so far.  `Parse`/`ParseStrict` supply fuel
bounded by the token count, which the fuel-sufficiency lemmas show is
never exhausted. -/

inductive PMode where
  | exprM
  | orLoopM (left : Expression)
  | andM
  | andLoopM (left : Expression)
  | withM
  | atomM

/-- Embeds `parseLicenseRef`: strips the `LicenseRef-` prefix. -/
def parseLicenseRef (s : String) : Expression :=
  if strHasPrefix (upperStr s) "LICENSEREF-" then .licenseRef "" ⟨s.data.drop 11⟩
  else .licenseRef "" s

/-- Embeds `parseDocumentRef`: splits `DocumentRef-xxx:LicenseRef-yyy`. -/
def parseDocumentRef (s : String) : Expression :=
  if strHasPrefix (upperStr s) "DOCUMENTREF-" then
    let rest : List Char := s.data.drop 12
    match indexOfAux ":LICENSEREF-".data (rest.map Char.toUpper) with
    | some idx => .licenseRef ⟨rest.take idx⟩ ⟨rest.drop (idx + 12)⟩
    | none => .licenseRef "" s
  else .licenseRef "" s

/-- Embeds `parseExpression` / `parseAnd` / `parseWith` / `parseAtom`
(the recursive-descent parser), flattened over `PMode`. -/
def parseGo : Nat → PMode → List Tok → Except Err (Expression × List Tok)
  | 0, _, _ => .error .outOfFuel
  | fuel + 1, mode, ts =>
    match mode, ts with
    | .exprM, ts => do
      let (left, ts1) ← parseGo fuel .andM ts
      parseGo fuel (.orLoopM left) ts1
    | .orLoopM left, .tokenOr :: ts1 => do
      let (right, ts2) ← parseGo fuel .andM ts1
      parseGo fuel (.orLoopM (.orExpr left right)) ts2
    | .orLoopM left, ts => .ok (left, ts)
    | .andM, ts => do
      let (left, ts1) ← parseGo fuel .withM ts
      parseGo fuel (.andLoopM left) ts1
    | .andLoopM left, .tokenAnd :: ts1 => do
      let (right, ts2) ← parseGo fuel .withM ts1
      parseGo fuel (.andLoopM (.andExpr left right)) ts2
    | .andLoopM left, ts => .ok (left, ts)
    | .withM, ts => do
      let (left, ts1) ← parseGo fuel .atomM ts
      match ts1 with
      | .tokenWith :: ts2 =>
        match left with
        | .license id pl _ =>
          match ts2 with
          | .tokenLicense v :: ts3 =>
            let exception := lookupException v
            if exception = "" then .error (.invalidException v)
            else .ok (.license id pl exception, ts3)
          | _ => .error (.missingOperand "expected exception after WITH")
        | _ => .error (.unexpectedToken "WITH can only follow a license")
      | _ => .ok (left, ts1)
    | .atomM, .tokenOpenParen :: ts1 => do
      let (expr, ts2) ← parseGo fuel .exprM ts1
      match ts2 with
      | .tokenCloseParen :: ts3 => .ok (expr, ts3)
      | _ => .error .unbalancedParens
    | .atomM, .tokenLicense v :: ts1 =>
      let upper := upperStr v
      if upper = "NONE" ∨ upper = "NOASSERTION" then .ok (.specialValue upper, ts1)
      else
        let id := lookupLicense v
        if id = "" then .error (.invalidLicenseID v)
        else
          match ts1 with
          | .tokenPlus :: ts2 => .ok (.license id true "", ts2)
          | _ => .ok (.license id false "", ts1)
    | .atomM, .tokenLicenseRef v :: ts1 => .ok (parseLicenseRef v, ts1)
    | .atomM, .tokenDocumentRef v :: ts1 => .ok (parseDocumentRef v, ts1)
    | .atomM, [] => .error (.missingOperand "")
    | .atomM, t :: _ => .error (.unexpectedToken t.value)

/-! ## parse_lax.go: expression pre-processor -/

/-- Embeds `tokenForNorm` (parse_lax.go). -/
inductive TokenForNorm where
  | word (value : String)
  | op (value : String)
  | lparen
  | rparen
  | plus
deriving DecidableEq

/-- The flush step of `tokenizeForNormalization`: classifies the buffered
word, with operators stored uppercase. -/
def flushNorm (cur : List Char) : List TokenForNorm :=
  if cur = [] then []
  else
    let word : String := ⟨cur⟩
    let upper := upperStr word
    if upper = "AND" ∨ upper = "OR" ∨ upper = "WITH" then [.op upper]
    else [.word word]

/-- Embeds `tokenizeForNormalization` (parse_lax.go). -/
def tokenizeForNormalizationAux : List Char → List Char → List TokenForNorm
  | [], cur => flushNorm cur
  | c :: cs, cur =>
    if c = '(' then flushNorm cur ++ TokenForNorm.lparen :: tokenizeForNormalizationAux cs []
    else if c = ')' then flushNorm cur ++ TokenForNorm.rparen :: tokenizeForNormalizationAux cs []
    else if c = '+' then flushNorm cur ++ TokenForNorm.plus :: tokenizeForNormalizationAux cs []
    else if goIsSpace c then flushNorm cur ++ tokenizeForNormalizationAux cs []
    else tokenizeForNormalizationAux cs (cur ++ [c])

def tokenizeForNormalization (expr : String) : List TokenForNorm :=
  tokenizeForNormalizationAux expr.data []

/-- One candidate span of `normalizeLicenseWords`: `Normalize` on the
joined span, and on failure with a trailing `+`, `Normalize` on the base
with the `+` re-attached and upgraded. -/
def trySpan (candidate : String) : Option String :=
  match Normalize candidate with
  | .ok n => some n
  | .error _ =>
    if strHasSuffix candidate "+" then
      match Normalize (trimSuffixStr candidate "+") with
      | .ok n => some (upgradeGPL (n ++ "+"))
      | .error _ => none
    else none

/-- The inner span loop of `normalizeLicenseWords`: tries prefix spans of
`rem` of length `k, k-1, ..., 1`. -/
def trySpans (rem : List String) : Nat → Option (String × Nat)
  | 0 => none
  | k + 1 =>
    match trySpan (joinSep " " (rem.take (k + 1))) with
    | some r => some (r, k + 1)
    | none => trySpans rem k

/-- The outer greedy loop of `normalizeLicenseWords`, fuelled by the word
count (each consumed span is non-empty). -/
def spanLoop : Nat → List String → Except Err (List String)
  | _, [] => .ok []
  | 0, w :: _ => .error (.invalidLicenseID w)
  | fuel + 1, w :: ws =>
    match trySpans (w :: ws) (w :: ws).length with
    | some (r, k) => do
      let rest ← spanLoop fuel ((w :: ws).drop k)
      .ok (r :: rest)
    | none => .error (.invalidLicenseID w)

/-- Embeds `normalizeLicenseWords` (parse_lax.go): special values and
refs pass through; otherwise greedy longest-prefix span matching. -/
def normalizeLicenseWords (words : List String) : Except Err String :=
  match words with
  | [] => .error (.missingOperand "")
  | [w] =>
    let upper := upperStr w
    if upper = "NONE" ∨ upper = "NOASSERTION" then .ok upper
    else if strHasPrefix upper "LICENSEREF-" ∨ strHasPrefix upper "DOCUMENTREF-" then .ok w
    else do
      let results ← spanLoop words.length words
      .ok (joinSep " " results)
  | _ => do
    let results ← spanLoop words.length words
    .ok (joinSep " " results)

/-- The mutable state of `normalizeTokens`: the output builder, the buffer
of pending license words, and the after-WITH flag. -/
structure NormAcc where
  result : String
  licenseWords : List String
  expectException : Bool

/-- Embeds the `flushLicense` closure of `normalizeTokens`. -/
def flushLicense (acc : NormAcc) : Except Err NormAcc :=
  if acc.licenseWords = [] then .ok acc
  else do
    let normalized ← normalizeLicenseWords acc.licenseWords
    let res :=
      if acc.result ≠ "" ∧ ¬ strHasSuffix acc.result "(" then acc.result ++ " "
      else acc.result
    .ok ⟨res ++ normalized, [], acc.expectException⟩

/-- Embeds the `flushException` closure of `normalizeTokens`: the words
after WITH must resolve by exact exception lookup of the dash-joined or
space-joined form. -/
def flushException (acc : NormAcc) : Except Err NormAcc :=
  if acc.licenseWords = [] then .ok acc
  else
    let exc1 := joinSep "-" acc.licenseWords
    let exc :=
      if lookupException exc1 = "" then joinSep " " acc.licenseWords else exc1
    if lookupException exc = "" then .error (.invalidException exc)
    else .ok ⟨acc.result ++ " " ++ lookupException exc, [], acc.expectException⟩

/-- The per-token step of `normalizeTokens`. -/
def normalizeTokensStep (acc : NormAcc) (tok : TokenForNorm) : Except Err NormAcc := do
  match tok with
  | .op v => do
    let acc ← (if acc.expectException then
                 (do let a ← flushException acc; pure ⟨a.result, a.licenseWords, false⟩)
               else flushLicense acc)
    let acc : NormAcc := ⟨acc.result ++ " " ++ v, acc.licenseWords, acc.expectException⟩
    if v = "WITH" then pure ⟨acc.result, acc.licenseWords, true⟩ else pure acc
  | .lparen => do
    let acc ← (if acc.expectException then
                 (do let a ← flushException acc; pure ⟨a.result, a.licenseWords, false⟩)
               else flushLicense acc)
    let res :=
      if acc.result ≠ "" ∧ ¬ strHasSuffix acc.result "(" ∧ ¬ strHasSuffix acc.result " " then
        acc.result ++ " "
      else acc.result
    pure ⟨res ++ "(", acc.licenseWords, acc.expectException⟩
  | .rparen => do
    let acc ← (if acc.expectException then
                 (do let a ← flushException acc; pure ⟨a.result, a.licenseWords, false⟩)
               else flushLicense acc)
    pure ⟨acc.result ++ ")", acc.licenseWords, acc.expectException⟩
  | .plus =>
    match acc.licenseWords.reverse with
    | last :: revRest => pure ⟨acc.result, (revRest.reverse) ++ [last ++ "+"], acc.expectException⟩
    | [] => pure acc
  | .word w => pure ⟨acc.result, acc.licenseWords ++ [w], acc.expectException⟩

/-- The token loop of `normalizeTokens`. -/
def normalizeTokensGo (acc : NormAcc) : List TokenForNorm → Except Err String
  | [] => do
    let acc ← (if acc.expectException then flushException acc else flushLicense acc)
    .ok (goTrimSpace acc.result)
  | tok :: toks => do
    let acc ← normalizeTokensStep acc tok
    normalizeTokensGo acc toks

/-- Embeds `normalizeTokens` (parse_lax.go). -/
def normalizeTokens (tokens : List TokenForNorm) : Except Err String :=
  normalizeTokensGo ⟨"", [], false⟩ tokens

/-- Embeds `normalizeExpressionString` (parse_lax.go). -/
def normalizeExpressionString (expr : String) : Except Err String :=
  normalizeTokens (tokenizeForNormalization expr)

/-! ## Parse and ParseStrict -/

/-- Fuel supplied to the parser; ample for the token count (see the
fuel-sufficiency lemmas). -/
def parseFuel (ts : List Tok) : Nat := 8 * ts.length + 8

/-- Embeds `Parse`: trims, rejects empty input, normalizes informal
license names, then runs the parser and requires end of input. -/
def Parse (expression : String) : Except Err Expression :=
  let expression := goTrimSpace expression
  if expression = "" then .error .emptyExpression
  else do
    let normalized ← normalizeExpressionString expression
    let ts := lexGo normalized
    let (expr, rest) ← parseGo (parseFuel ts) .exprM ts
    match rest with
    | [] => .ok expr
    | t :: _ => .error (.unexpectedToken t.value)

/-- Embeds `ParseStrict`: identical grammar, no normalization pass. -/
def ParseStrict (expression : String) : Except Err Expression :=
  let expression := goTrimSpace expression
  if expression = "" then .error .emptyExpression
  else do
    let ts := lexGo expression
    let (expr, rest) ← parseGo (parseFuel ts) .exprM ts
    match rest with
    | [] => .ok expr
    | t :: _ => .error (.unexpectedToken t.value)

/-! ## Claim theorems -/

/-- C2: Parse applies operator precedence WITH tightest, then AND, then OR,
each left-associative, and the renderer reinserts minimal parentheses, so
that `Parse("MIT OR GPL-2.0-only AND Apache-2.0").String()` is
`"MIT OR (GPL-2.0-only AND Apache-2.0)"`. -/
theorem parse_precedence_and_minimal_parens :
    Parse "MIT OR GPL-2.0-only AND Apache-2.0" =
      .ok (.orExpr (.license "MIT" false "")
        (.andExpr (.license "GPL-2.0-only" false "") (.license "Apache-2.0" false ""))) ∧
    (Parse "MIT OR GPL-2.0-only AND Apache-2.0").map Expression.String =
      .ok "MIT OR (GPL-2.0-only AND Apache-2.0)" ∧
    Parse "MIT AND Apache-2.0 AND ISC" =
      .ok (.andExpr (.andExpr (.license "MIT" false "") (.license "Apache-2.0" false ""))
        (.license "ISC" false "")) ∧
    Parse "MIT OR Apache-2.0 OR ISC" =
      .ok (.orExpr (.orExpr (.license "MIT" false "") (.license "Apache-2.0" false ""))
        (.license "ISC" false "")) ∧
    Parse "MIT AND Apache-2.0 OR ISC" =
      .ok (.orExpr (.andExpr (.license "MIT" false "") (.license "Apache-2.0" false ""))
        (.license "ISC" false "")) ∧
    Parse "GPL-2.0-only WITH Classpath-exception-2.0 AND MIT" =
      .ok (.andExpr (.license "GPL-2.0-only" false "Classpath-exception-2.0")
        (.license "MIT" false "")) := by
  refine ⟨by decide, by decide, by decide, by decide, by decide, by decide⟩

/-- C3: the claim says the deprecated upgrade maps every one of the nine
GNU-family forms with a trailing `+` to the `-or-later` identifier, e.g.
`Normalize("LGPL-1.0+") == "LGPL-1.0-or-later"` and
`Normalize("AGPL-2.0+") == "AGPL-2.0-or-later"`.  The code's `upgradeGPL`
handles the bare forms `LGPL-1.0` and `AGPL-2.0` but omits exactly their
`+` forms from its or-later case, so those two identifiers pass through
unchanged (while `GPL-3.0`, `GPL-2.0+` and the other forms behave as
claimed). -/
theorem upgradeGPL_omits_plus_forms :
    Normalize "GPL-3.0" = .ok "GPL-3.0-or-later" ∧
    Normalize "GPL-2.0+" = .ok "GPL-2.0-or-later" ∧
    upgradeGPL "LGPL-1.0" = "LGPL-1.0-only" ∧
    upgradeGPL "AGPL-2.0" = "AGPL-2.0-only" ∧
    upgradeGPL "GPL-2.0+" = "GPL-2.0-or-later" ∧
    upgradeGPL "LGPL-1.0+" = "LGPL-1.0+" ∧
    upgradeGPL "AGPL-2.0+" = "AGPL-2.0+" ∧
    Normalize "LGPL-1.0+" = .ok "LGPL-1.0+" ∧
    Normalize "AGPL-2.0+" = .ok "AGPL-2.0+" := by
  refine ⟨by decide, by decide, by decide, by decide, by decide, by decide, by decide,
    by decide, by decide⟩

/-- C4: ParseStrict accepts exactly the expressions whose license words
match the vocabulary by exact case-insensitive lookup (no normalization):
a license word not in the vocabulary (and not a special value) always
fails the atom parse with the invalid-identifier error, so
`ParseStrict("mit OR apache 2")` fails while `Parse` normalizes it to
`"MIT OR Apache-2.0"`. -/
theorem parseStrict_exact_lookup_only :
    (∀ (w : String) (f : Nat) (ts : List Tok), lookupLicense w = "" →
        ¬(upperStr w = "NONE" ∨ upperStr w = "NOASSERTION") →
        parseGo (f + 1) .atomM (.tokenLicense w :: ts) = .error (.invalidLicenseID w)) ∧
    ParseStrict "mit OR apache 2" = .error (.invalidLicenseID "apache") ∧
    (Parse "mit OR apache 2").map Expression.String = .ok "MIT OR Apache-2.0" ∧
    ParseStrict "mit OR apache-2.0" =
      .ok (.orExpr (.license "MIT" false "") (.license "Apache-2.0" false "")) := by
  refine ⟨?_, by decide, by decide, by decide⟩
  intro w f ts hlk hsp
  have h1 : ¬ upperStr w = "NONE" := fun h => hsp (Or.inl h)
  have h2 : ¬ upperStr w = "NOASSERTION" := fun h => hsp (Or.inr h)
  simp [parseGo, h1, h2, hlk]

/-- C4 witness. -/
theorem parseStrict_exact_lookup_only_witness :
    parseGo 1 .atomM [.tokenLicense "apache"] = .error (.invalidLicenseID "apache") :=
  parseStrict_exact_lookup_only.1 "apache" 0 [] (by decide) (by decide)

/-- C5 counterexample: the claim says `Parse("(MIT) WITH
Classpath-exception-2.0")` returns an error, but the parser's type test
sees the License node produced inside the parentheses, so the parse
succeeds and attaches the exception. -/
theorem with_after_paren_license_succeeds :
    Parse "(MIT) WITH Classpath-exception-2.0" =
      .ok (.license "MIT" false "Classpath-exception-2.0") := by decide

/-- C5 (amended): WITH is legal directly after an atom that produced a
License node - including a parenthesized sub-expression that reduces to a
single License - and fails with the unexpected-token error after a
parenthesized AND/OR composite, a LicenseRef, or a special value; the
word after WITH must resolve by exact case-insensitive exception lookup
or the parse fails with the invalid-exception error. -/
theorem with_attachment_constraints :
    Parse "(MIT) WITH Classpath-exception-2.0" =
      .ok (.license "MIT" false "Classpath-exception-2.0") ∧
    Parse "(MIT OR Apache-2.0) WITH Classpath-exception-2.0" =
      .error (.unexpectedToken "WITH can only follow a license") ∧
    Parse "(MIT AND Apache-2.0) WITH Classpath-exception-2.0" =
      .error (.unexpectedToken "WITH can only follow a license") ∧
    Parse "LicenseRef-custom WITH Classpath-exception-2.0" =
      .error (.unexpectedToken "WITH can only follow a license") ∧
    ParseStrict "MIT WITH Sandwich-exception" =
      .error (.invalidException "Sandwich-exception") ∧
    Parse "MIT WITH Sandwich-exception" =
      .error (.invalidException "Sandwich-exception") ∧
    Parse "MIT WITH classpath-exception-2.0" =
      .ok (.license "MIT" false "Classpath-exception-2.0") ∧
    Parse "GPL-2.0-only WITH Classpath-exception-2.0" =
      .ok (.license "GPL-2.0-only" false "Classpath-exception-2.0") := by
  refine ⟨by decide, by decide, by decide, by decide, by decide, by decide, by decide,
    by decide⟩

/-- C6 counterexample: the claim says a SpecialValue node is never a child
of an AND or OR expression in a parse result, but `Parse("NONE AND MIT")`
succeeds with the SpecialValue as the left child of the AND. -/
theorem special_value_composes_in_and :
    Parse "NONE AND MIT" =
      .ok (.andExpr (.specialValue "NONE") (.license "MIT" false "")) := by decide

/-- C6 (amended): a special value parsed alone is the entire expression,
and a special value never carries a WITH exception (WITH directly after
NONE/NOASSERTION is an unexpected-token error); however the grammar does
not forbid composing special values under AND/OR, and both Parse and
ParseStrict accept e.g. `NONE AND MIT` with the SpecialValue as a child. -/
theorem special_value_constraints :
    Parse "NONE" = .ok (.specialValue "NONE") ∧
    Parse "NOASSERTION" = .ok (.specialValue "NOASSERTION") ∧
    Parse "noassertion" = .ok (.specialValue "NOASSERTION") ∧
    Parse "NONE WITH Classpath-exception-2.0" =
      .error (.unexpectedToken "WITH can only follow a license") ∧
    ParseStrict "NOASSERTION WITH Classpath-exception-2.0" =
      .error (.unexpectedToken "WITH can only follow a license") ∧
    Parse "NONE AND MIT" =
      .ok (.andExpr (.specialValue "NONE") (.license "MIT" false "")) ∧
    ParseStrict "MIT OR NONE" =
      .ok (.orExpr (.license "MIT" false "") (.specialValue "NONE")) := by
  refine ⟨by decide, by decide, by decide, by decide, by decide, by decide, by decide⟩

/-- C7: the multi-word splitter greedily matches the longest prefix span
first: a phrase whose full span normalizes is consumed as one term (so
"New BSD License" yields the single term BSD-3-Clause, and "MIT License"
is not split into "MIT" plus an invalid "License"); and when every span
length starting at a word fails, that single leftover word is reported as
the invalid identifier. -/
theorem greedy_span_matching :
    (∀ (w1 w2 : String) (ws : List String) (r : String),
        Normalize (joinSep " " (w1 :: w2 :: ws)) = .ok r →
        normalizeLicenseWords (w1 :: w2 :: ws) = .ok r) ∧
    (∀ (w1 w2 : String) (ws : List String),
        trySpans (w1 :: w2 :: ws) (w1 :: w2 :: ws).length = none →
        normalizeLicenseWords (w1 :: w2 :: ws) = .error (.invalidLicenseID w1)) ∧
    normalizeLicenseWords ["New", "BSD", "License"] = .ok "BSD-3-Clause" ∧
    normalizeLicenseWords ["MIT", "License"] = .ok "MIT" ∧
    normalizeLicenseWords ["CC-BY-4.0", "CC-BY-3.0"] = .ok "CC-BY-4.0 CC-BY-3.0" ∧
    normalizeLicenseWords ["QQX", "ZZW"] = .error (.invalidLicenseID "QQX") := by
  refine ⟨?_, ?_, by decide, by decide, by decide, by decide⟩
  · intro w1 w2 ws r h
    have hs : trySpan (joinSep " " (w1 :: w2 :: ws)) = some r := by
      unfold trySpan
      rw [h]
    show (do
      let results ← spanLoop (w1 :: w2 :: ws).length (w1 :: w2 :: ws)
      Except.ok (joinSep " " results) : Except Err String) = .ok r
    have hlen : (w1 :: w2 :: ws).length = (w2 :: ws).length + 1 := rfl
    rw [hlen]
    show (do
      let results ←
        (match trySpans (w1 :: w2 :: ws) (w1 :: w2 :: ws).length with
         | some (r, k) => do
           let rest ← spanLoop (w2 :: ws).length ((w1 :: w2 :: ws).drop k)
           Except.ok (r :: rest)
         | none => Except.error (Err.invalidLicenseID w1))
      Except.ok (joinSep " " results) : Except Err String) = .ok r
    have ht : trySpans (w1 :: w2 :: ws) (w1 :: w2 :: ws).length = some (r, (w1 :: w2 :: ws).length) := by
      show (match trySpan (joinSep " " ((w1 :: w2 :: ws).take ((w2 :: ws).length + 1))) with
        | some rr => some (rr, (w2 :: ws).length + 1)
        | none => trySpans (w1 :: w2 :: ws) (w2 :: ws).length) = _
      rw [show (w2 :: ws).length + 1 = (w1 :: w2 :: ws).length from rfl, List.take_length, hs]
    rw [ht]
    simp only []
    rw [List.drop_length]
    rfl
  · intro w1 w2 ws h
    show (do
      let results ← spanLoop (w1 :: w2 :: ws).length (w1 :: w2 :: ws)
      Except.ok (joinSep " " results) : Except Err String) = _
    have hlen : (w1 :: w2 :: ws).length = (w2 :: ws).length + 1 := rfl
    rw [hlen]
    show (do
      let results ←
        (match trySpans (w1 :: w2 :: ws) (w1 :: w2 :: ws).length with
         | some (r, k) => do
           let rest ← spanLoop (w2 :: ws).length ((w1 :: w2 :: ws).drop k)
           Except.ok (r :: rest)
         | none => Except.error (Err.invalidLicenseID w1))
      Except.ok (joinSep " " results) : Except Err String) = _
    rw [h]
    rfl

/-- C7 witness. -/
theorem greedy_span_matching_witness :
    normalizeLicenseWords ["New", "BSD", "License"] = .ok "BSD-3-Clause" ∧
    normalizeLicenseWords ["QQX", "ZZW"] = .error (.invalidLicenseID "QQX") :=
  ⟨greedy_span_matching.1 "New" "BSD" ["License"] "BSD-3-Clause" (by decide),
   greedy_span_matching.2.1 "QQX" "ZZW" [] (by decide)⟩

/-- C8: empty or whitespace-only input yields the empty-input error,
`((MIT)` the unbalanced-parentheses error, `MIT AND` the missing-operand
error, and these error kinds are pairwise distinguishable. -/
theorem parse_error_kinds :
    Parse "" = .error .emptyExpression ∧
    Parse "   " = .error .emptyExpression ∧
    Parse "((MIT)" = .error .unbalancedParens ∧
    Parse "MIT AND" = .error (.missingOperand "") ∧
    (Err.emptyExpression ≠ Err.unbalancedParens ∧
     Err.emptyExpression ≠ Err.missingOperand "" ∧
     Err.unbalancedParens ≠ Err.missingOperand "" ∧
     ∀ t : String, Err.unexpectedToken t ≠ Err.unbalancedParens) := by
  refine ⟨by decide, by decide, by decide, by decide, by decide, by decide, by decide,
    fun t h => by cases h⟩

/-- C9: Licenses() is the left-to-right, non-deduplicated flattening of
License/LicenseRef leaves: AND/OR concatenate left then right, a License
leaf contributes its identifier without recursing into the exception
field, a LicenseRef contributes its rendered literal, and a SpecialValue
contributes nothing. -/
theorem licenses_flattening :
    (∀ l r : Expression, (Expression.andExpr l r).Licenses = l.Licenses ++ r.Licenses) ∧
    (∀ l r : Expression, (Expression.orExpr l r).Licenses = l.Licenses ++ r.Licenses) ∧
    (∀ (id : String) (pl : Bool) (exc : String),
        (Expression.license id pl exc).Licenses = [id]) ∧
    (∀ doc lic : String,
        (Expression.licenseRef doc lic).Licenses = [(Expression.licenseRef doc lic).String]) ∧
    (∀ v : String, (Expression.specialValue v).Licenses = []) ∧
    (Parse "GPL-2.0-only WITH Classpath-exception-2.0").map Expression.Licenses =
      .ok ["GPL-2.0-only"] ∧
    (Parse "MIT OR Apache-2.0 AND GPL-2.0-only").map Expression.Licenses =
      .ok ["MIT", "Apache-2.0", "GPL-2.0-only"] ∧
    (Parse "LicenseRef-custom OR MIT").map Expression.Licenses =
      .ok ["LicenseRef-custom", "MIT"] ∧
    (Parse "NONE").map Expression.Licenses = .ok [] := by
  refine ⟨fun l r => rfl, fun l r => rfl, fun id pl exc => rfl, fun doc lic => rfl,
    fun v => rfl, by decide, by decide, by decide, by decide⟩

/-- C10: a License leaf carrying the plus flag contributes the bare
identifier through Licenses() while String() appends the `+`, so
`Parse("Apache-2.0+").Licenses() == ["Apache-2.0"]` and its rendering is
`"Apache-2.0+"`. -/
theorem plus_flag_rendering_vs_licenses :
    (∀ (id : String) (exc : String), (Expression.license id true exc).Licenses = [id]) ∧
    (∀ id : String, (Expression.license id true "").String = id ++ "+") ∧
    Parse "Apache-2.0+" = .ok (.license "Apache-2.0" true "") ∧
    (Parse "Apache-2.0+").map Expression.Licenses = .ok ["Apache-2.0"] ∧
    (Parse "Apache-2.0+").map Expression.String = .ok "Apache-2.0+" := by
  refine ⟨fun id exc => rfl, fun id => rfl, by decide, by decide, by decide⟩

/-- C1 counterexample: the claim quantifies over every valid tree, where a
License identifier is any value validated against the vocabulary.  The
deprecated identifier `GPL-2.0` is in the vocabulary (ParseStrict itself
builds this tree), its tree renders to "GPL-2.0", but re-parsing upgrades
the identifier, so the Licenses() multiset changes and
render(parse(render(e))) differs from render(e). -/
theorem roundtrip_fails_on_deprecated_id :
    ParseStrict "GPL-2.0" = .ok (.license "GPL-2.0" false "") ∧
    lookupLicense "GPL-2.0" = "GPL-2.0" ∧
    (Expression.license "GPL-2.0" false "").String = "GPL-2.0" ∧
    Parse ((Expression.license "GPL-2.0" false "").String) =
      .ok (.license "GPL-2.0-only" false "") ∧
    (Expression.license "GPL-2.0-only" false "").Licenses ≠
      (Expression.license "GPL-2.0" false "").Licenses ∧
    (Expression.license "GPL-2.0-only" false "").String ≠
      (Expression.license "GPL-2.0" false "").String := by
  refine ⟨by decide, by decide, by decide, by decide, by decide, by decide⟩

end SpdxSpec
